import Mathlib

/-!
Verification of the engine-supervision layer of `chess-labs/terminal`
(`src/engine.ts`, class `StockfishEngine`).

JavaScript strings are modelled as `List Char` (`JStr`); the JS string
operations used by the source (`trim`, `split`, `startsWith`, template
interpolation, `Number.parseInt`) are modelled explicitly so that their exact
semantics (including corner cases) are captured.  The mutable fields of the
`StockfishEngine` class (`process`, `isReady`, `options`, `isRestarting`)
become the record `EngineState`; methods become pure state-transition
functions that additionally return the events emitted and the commands sent.
-/

namespace ChessTerminal

/-- JavaScript strings, modelled as their character sequences. -/
abbrev JStr := List Char

/-- Conversion from a Lean string literal to the character-list model. -/
def str (s : String) : JStr := s.data

/-- Whitespace test used by the model of `String.prototype.trim`. -/
def isWS (c : Char) : Bool :=
  c = ' ' || c = '\t' || c = '\n' || c = '\r'

/-- Model of JS `s.trim()`: strip whitespace from both ends. -/
def jsTrim (s : JStr) : JStr :=
  ((s.dropWhile isWS).reverse.dropWhile isWS).reverse

/-- Model of JS `s.startsWith(p)`. -/
def jsStartsWith (s p : JStr) : Bool :=
  p.isPrefixOf s

/-- Model of JS `s.split(sep)` for a single-character separator: note that
`"".split(x)` is `[""]` and empty fields between adjacent separators are kept,
exactly as in JavaScript. -/
def jsSplit (sep : Char) : JStr → List JStr
  | [] => [[]]
  | c :: t =>
    match jsSplit sep t with
    | [] => [[c]]
    | h :: r => if c = sep then [] :: h :: r else (c :: h) :: r

/-- Model of JS `xs.join(sep)` for a single-character separator. -/
def jsJoin (sep : Char) (xs : List JStr) : JStr :=
  List.intercalate [sep] xs

/-- Rendering of a number into a JS template literal. -/
def natToJStr (n : Nat) : JStr := (toString n).data

/-- Leading decimal digits of a character list, as a number; `none` when the
list does not start with a digit (the NaN outcome of `Number.parseInt`). -/
def leadDigits (l : JStr) : Option Nat :=
  let ds := l.takeWhile (fun c => c.isDigit)
  if ds.isEmpty then none
  else some (ds.foldl (fun acc c => acc * 10 + (c.toNat - 48)) 0)

/-- Model of JS `Number.parseInt` on a string (radix 10): optional sign, then
leading digits; `none` models the NaN result. -/
def jsParseInt (s : JStr) : Option Int :=
  let t := s.dropWhile isWS
  match t with
  | '-' :: r => (leadDigits r).map (fun n => -(n : Int))
  | '+' :: r => (leadDigits r).map (fun n => (n : Int))
  | _ => (leadDigits t).map (fun n => (n : Int))

/-- JS truthiness of an optional number: `undefined`, and the number `0`, are
falsy. -/
def jsTruthyNum : Option Nat → Bool
  | none => false
  | some n => n != 0

/-- The `UCIOption` interface of `src/types.ts`.  The source casts the parsed
type token with `as UCIOption['type']`, so the field is an arbitrary string
here, exactly as at runtime. -/
structure UCIOption where
  name : JStr
  type : JStr
  dflt : Option JStr := none
  min : Option Int := none
  max : Option Int := none
  var : Option (List (Option JStr)) := none
deriving Repr, DecidableEq

/-- The `Partial<UCIOption>` record built up inside `parseOption`. -/
structure PartialUCIOption where
  name : JStr := []
  type : Option JStr := none
  dflt : Option JStr := none
  min : Option Int := none
  max : Option Int := none
  var : Option (List (Option JStr)) := none
deriving Repr, DecidableEq

/-- The `Map<string, UCIOption>` of the class, as an insertion-ordered
association list. -/
abbrev OptMap := List (JStr × UCIOption)

/-- JS `Map.prototype.set`: replace in place when the key exists, otherwise
append. -/
def mapSet (m : OptMap) (k : JStr) (v : UCIOption) : OptMap :=
  if m.any (fun p => p.1 = k) then
    m.map (fun p => if p.1 = k then (k, v) else p)
  else m ++ [(k, v)]

/-- JS `Map.prototype.get`. -/
def mapGet (m : OptMap) (k : JStr) : Option UCIOption :=
  (m.find? (fun p => p.1 = k)).map (fun p => p.2)

/-- The `while` loop of `parseOption` scanning `default`, `min`, `max` and
`var` parameters; `rs` is `parts` from the index just after the type token.
Matching a keyword consumes the following value (`parts[++i]`, possibly
`undefined` at the end of the line) and advances by two; anything else
advances by one. -/
def parseParams : List JStr → PartialUCIOption → PartialUCIOption
  | [], acc => acc
  | p :: t, acc =>
    if p = str ("default") then
      match t with
      | [] => { acc with dflt := none }
      | v :: t2 => parseParams t2 { acc with dflt := some v }
    else if p = str ("min") then
      match t with
      | [] => { acc with min := none }
      | v :: t2 => parseParams t2 { acc with min := jsParseInt v }
    else if p = str ("max") then
      match t with
      | [] => { acc with max := none }
      | v :: t2 => parseParams t2 { acc with max := jsParseInt v }
    else if p = str ("var") then
      match t with
      | [] => { acc with var := some ((acc.var.getD []) ++ [none]) }
      | v :: t2 => parseParams t2 { acc with var := some ((acc.var.getD []) ++ [some v]) }
    else parseParams t acc

/-- JS `findIndex((part, index) => index > i && part === 'type')` with `i = 2`:
the first index strictly greater than 2 holding the token `type`; `none`
models the `-1` result. -/
def findTypeIdx (parts : List JStr) : Option Nat :=
  (List.range parts.length).find?
    (fun idx => decide (2 < idx ∧ parts[idx]? = some (str ("type"))))

/-- `StockfishEngine.parseOption` (engine.ts lines 94-128), faithfully
including the `findIndex = -1` case in which `slice(2, -1)` is
`slice(2, parts.length - 1)` and the type token is read from `parts[0]`. -/
def parseOption (line : JStr) (options : OptMap) : OptMap :=
  let parts := jsSplit ' ' line
  let nameEnd := findTypeIdx parts
  let name :=
    match nameEnd with
    | some e => jsJoin ' ' ((parts.drop 2).take (e - 2))
    | none => jsJoin ' ' ((parts.drop 2).take (parts.length - 1 - 2))
  let iType := match nameEnd with | some e => e + 1 | none => 0
  let type := parts[iType]?
  let opt := parseParams (parts.drop (iType + 1)) { name := name, type := type }
  let typeTruthy := match opt.type with | none => false | some t => !t.isEmpty
  if name ≠ [] ∧ typeTruthy = true then
    mapSet options name
      { name := name, type := opt.type.getD [], dflt := opt.dflt,
        min := opt.min, max := opt.max, var := opt.var }
  else options

/-- The mutable fields of the `StockfishEngine` class: `process` (modelled by
whether a live process handle exists), `isReady`, `isRestarting` and the
`options` map. -/
structure EngineState where
  hasProcess : Bool := false
  isReady : Bool := false
  isRestarting : Bool := false
  options : OptMap := []
deriving Repr, DecidableEq

/-- Events emitted through the `EventEmitter` base class. -/
inductive EngineEvent where
  | ready
  | bestmove (m : Option JStr)
  | info (s : JStr)
deriving Repr, DecidableEq

/-- `StockfishEngine.handleEngineOutput` (engine.ts lines 72-92) as a pure
function: the updated state, the events emitted, and the commands sent
(`isready` on `uciok`).  The `bestmove` payload is `trimmed.split(' ')[1]`,
which may be `undefined`. -/
def handleEngineOutput (st : EngineState) (line : JStr) :
    EngineState × List EngineEvent × List JStr :=
  let trimmed := jsTrim line
  if jsStartsWith trimmed (str ("id name")) then (st, [], [])
  else if jsStartsWith trimmed (str ("id author")) then (st, [], [])
  else if jsStartsWith trimmed (str ("option name")) then
    ({ st with options := parseOption trimmed st.options }, [], [])
  else if trimmed = str ("uciok") then (st, [], [str ("isready")])
  else if trimmed = str ("readyok") then
    ({ st with isReady := true }, [EngineEvent.ready], [])
  else if jsStartsWith trimmed (str ("bestmove")) then
    (st, [EngineEvent.bestmove ((jsSplit ' ' trimmed)[1]?)], [])
  else if jsStartsWith trimmed (str ("info")) then
    (st, [EngineEvent.info trimmed], [])
  else (st, [], [])

/-- The `for (const line of lines) this.handleEngineOutput(line)` loop,
accumulating events and sent commands in order. -/
def runLines (st : EngineState) : List JStr → EngineState × List EngineEvent × List JStr
  | [] => (st, [], [])
  | l :: ls =>
    let r := handleEngineOutput st l
    let rs := runLines r.1 ls
    (rs.1, r.2.1 ++ rs.2.1, r.2.2 ++ rs.2.2)

/-- The stdout data listener of `start()` (engine.ts lines 29-34): one chunk
is trimmed, split on newlines, and every resulting piece — including a
partial trailing line — is handed to `handleEngineOutput`. -/
def processChunk (st : EngineState) (chunk : JStr) :
    EngineState × List EngineEvent × List JStr :=
  runLines st (jsSplit '\n' (jsTrim chunk))

/-- Processing of a whole sequence of stdout chunks by the code. -/
def processChunks (st : EngineState) : List JStr → EngineState × List EngineEvent × List JStr
  | [] => (st, [], [])
  | c :: cs =>
    let r := processChunk st c
    let rs := processChunks r.1 cs
    (rs.1, r.2.1 ++ rs.2.1, r.2.2 ++ rs.2.2)

/-- Modelled from the spec: the missing line-buffering behaviour required by
section 4.1 of the specification ("a partial trailing line must be buffered
and prefixed to the next chunk rather than discarded").  One chunk is
appended to the carried buffer, the complete (newline-terminated) lines are
released, and the final piece stays in the buffer. -/
def bufferedFeed (buf chunk : JStr) : List JStr × JStr :=
  let pieces := jsSplit '\n' (buf ++ chunk)
  (pieces.dropLast, (pieces.getLast?).getD [])

/-- Modelled from the spec: the complete lines produced by feeding a chunk
sequence through the buffering splitter of `bufferedFeed`, starting from an
empty buffer. -/
def bufferedLines (chunks : List JStr) : List JStr :=
  (chunks.foldl
    (fun (acc : List JStr × JStr) c =>
      let r := bufferedFeed acc.2 c
      (acc.1 ++ r.1, r.2))
    ([], [])).1

/-- The `GameConfig` interface of `src/types.ts` (optional numbers are
milliseconds, plies, and skill level). -/
structure GameConfig where
  enginePath : JStr
  timeLimit : Option Nat := none
  depth : Option Nat := none
  skillLevel : Option Nat := none
deriving Repr, DecidableEq

/-- The search command chosen by `getBestMove` (engine.ts lines 200-206):
`if (this.config.depth) ... else if (timeLimit || this.config.timeLimit) ...
else 'go depth 10'`, with JS truthiness (a configured `0` is falsy). -/
def searchCommand (cfg : GameConfig) (timeLimit : Option Nat) : JStr :=
  if jsTruthyNum cfg.depth then
    str ("go depth ") ++ natToJStr (cfg.depth.getD 0)
  else if jsTruthyNum timeLimit || jsTruthyNum cfg.timeLimit then
    str ("go movetime ") ++
      natToJStr (if jsTruthyNum timeLimit then timeLimit.getD 0 else cfg.timeLimit.getD 0)
  else str ("go depth 10")

/-- The two commands sent by `getBestMove` once it proceeds: the `position
fen` line followed by the search command. -/
def bestMoveCommands (cfg : GameConfig) (position : JStr) (timeLimit : Option Nat) :
    List JStr :=
  [str ("position fen ") ++ position, searchCommand cfg timeLimit]

/-- The value `timeLimit || this.config.timeLimit || 5000` used to arm the
search timeout (engine.ts line 190). -/
def effectiveBudget (cfg : GameConfig) (timeLimit : Option Nat) : Nat :=
  if jsTruthyNum timeLimit then timeLimit.getD 0
  else if jsTruthyNum cfg.timeLimit then cfg.timeLimit.getD 0
  else 5000

/-- The timer duration of `getBestMove`:
`(timeLimit || this.config.timeLimit || 5000) + 1000` milliseconds. -/
def searchTimeoutMs (cfg : GameConfig) (timeLimit : Option Nat) : Nat :=
  effectiveBudget cfg timeLimit + 1000

/-- Settlement state of the promise returned by `getBestMove`. -/
inductive SearchOutcome where
  | pending
  | resolved (m : Option JStr)
  | timedOut
deriving Repr, DecidableEq

/-- The two things that can settle that promise: the armed timer firing, or a
`bestmove` event being received. -/
inductive SearchEvent where
  | timeout
  | bestmove (m : Option JStr)
deriving Repr, DecidableEq

/-- Promise settlement is first-wins: once resolved or rejected, later
resolutions and rejections have no effect (engine.ts lines 188-195: the timer
rejects, the `once` listener resolves). -/
def stepSearch : SearchOutcome → SearchEvent → SearchOutcome
  | SearchOutcome.pending, SearchEvent.timeout => SearchOutcome.timedOut
  | SearchOutcome.pending, SearchEvent.bestmove m => SearchOutcome.resolved m
  | s, _ => s

/-- The settlement reached by a pending search after a sequence of events. -/
def runSearch (evs : List SearchEvent) : SearchOutcome :=
  evs.foldl stepSearch SearchOutcome.pending

/-- The asynchronous remainder of `attemptRestart` (engine.ts lines 146-169):
after the fixed delay, the process handle is dropped, `isReady` is cleared,
the options map is cleared, and `start()` is re-run. -/
structure RestartPlan where
  delayMs : Nat
  stateBeforeStart : EngineState
deriving Repr, DecidableEq

/-- `StockfishEngine.attemptRestart`: refuse when a restart is already in
progress, otherwise set the flag and schedule the delayed cleanup-and-start
described by the returned `RestartPlan`. -/
def attemptRestart (st : EngineState) : EngineState × Option RestartPlan :=
  if st.isRestarting then (st, none)
  else
    ({ st with isRestarting := true },
      some { delayMs := 1000
             stateBeforeStart :=
               { st with
                 isRestarting := true
                 hasProcess := false
                 isReady := false
                 options := [] } })

/-- The `exit` listener installed by `start()` (engine.ts lines 41-50):
`isReady` is cleared, and `attemptRestart` runs exactly when the engine was
not deliberately stopped or restarting and the exit code is not `0` (a `null`
code from a signal also triggers it). -/
def handleExit (st : EngineState) (code : Option Int) :
    EngineState × Option RestartPlan :=
  if st.isRestarting = false ∧ code ≠ some 0 then
    attemptRestart { st with isReady := false }
  else ({ st with isReady := false }, none)

/-- `StockfishEngine.stop` (engine.ts lines 219-227): set the
do-not-auto-restart flag; when a process exists, send `quit`, kill it, drop
the handle and clear readiness.  The returned list is the commands sent. -/
def stop (st : EngineState) : EngineState × List JStr :=
  if st.hasProcess then
    ({ st with
       isRestarting := true
       hasProcess := false
       isReady := false },
      [str ("quit")])
  else ({ st with isRestarting := true }, [])

/-- Result of the synchronous prefix of `getBestMove`: either it proceeds and
sends the given commands, or it throws the not-ready/restart-failed error
before sending anything. -/
inductive BestMoveOutcome where
  | proceed (cmds : List JStr)
  | restartFailedError
deriving Repr, DecidableEq

/-- The prefix of `getBestMove` (engine.ts lines 171-207) up to sending the
search commands, returning how many restart cycles were attempted together
with the outcome.  `restartSucceeds` abstracts the result of the awaited
`attemptRestart` (after it, `isReady` holds exactly when the inner `start()`
succeeded; `attemptRestart` itself never throws, since it catches errors and
emits a `restart-failed` event instead). -/
def getBestMovePre (st : EngineState) (restartSucceeds : Bool) (cfg : GameConfig)
    (position : JStr) (timeLimit : Option Nat) : Nat × BestMoveOutcome :=
  if st.isReady = false ∧ st.isRestarting = false then
    if restartSucceeds = false then (1, BestMoveOutcome.restartFailedError)
    else (1, BestMoveOutcome.proceed (bestMoveCommands cfg position timeLimit))
  else if st.isReady = false then (0, BestMoveOutcome.restartFailedError)
  else (0, BestMoveOutcome.proceed (bestMoveCommands cfg position timeLimit))

/-- Payload selector for `bestmove` events. -/
def bestmovePayload : EngineEvent → Option (Option JStr)
  | EngineEvent.bestmove m => some m
  | _ => none

/-- The move with which the promise of `getBestMove` resolves, given the
output lines received after the request: the `once('bestmove')` listener
fires on the first `bestmove` event. -/
def resolvedMove (st : EngineState) (lines : List JStr) : Option (Option JStr) :=
  ((runLines st lines).2.1.filterMap bestmovePayload).head?

/-- A heap of JS `Map` objects, for the aliasing statement about
`getAvailableOptions`: references are indices, `readRef`/`writeRef` act on
the referenced map. -/
abbrev Heap := List OptMap

/-- Dereference a map handle. -/
def readRef (h : Heap) (r : Nat) : OptMap := (h[r]?).getD []

/-- Mutate the map behind a handle (covers adding, removing and replacing
entries: the new contents are arbitrary). -/
def writeRef (h : Heap) (r : Nat) (m : OptMap) : Heap := h.set r m

/-- The engine object as seen by `getAvailableOptions`: a heap and the handle
of the private `options` map. -/
structure EngineObj where
  heap : Heap
  optionsRef : Nat
deriving Repr, DecidableEq

/-- `StockfishEngine.getAvailableOptions` (engine.ts lines 229-231):
`return new Map(this.options)` — allocate a fresh map whose contents copy the
internal one and return the fresh handle. -/
def getAvailableOptions (e : EngineObj) : EngineObj × Nat :=
  ({ e with heap := e.heap ++ [readRef e.heap e.optionsRef] }, e.heap.length)

/-!  Helper lemmas about the JS string model. -/

theorem isPrefixOf_append_left (p t : List Char) : List.isPrefixOf p (p ++ t) = true := by
  induction p with
  | nil => simp [List.isPrefixOf]
  | cons a as ih => simp [List.isPrefixOf, ih]

theorem isPrefixOf_self_eq (s : List Char) : List.isPrefixOf s s = true := by
  have h := isPrefixOf_append_left s []
  rwa [List.append_nil] at h

theorem jsSplit_ne_nil (sep : Char) : ∀ l, jsSplit sep l ≠ []
  | [] => by simp [jsSplit]
  | c :: t => by
    simp only [jsSplit]
    rcases h : jsSplit sep t with _ | ⟨x, r⟩
    · simp
    · dsimp only
      split <;> simp

theorem jsSplit_no_sep (sep : Char) (l : List Char) (h : sep ∉ l) : jsSplit sep l = [l] := by
  induction l with
  | nil => rfl
  | cons c t ih =>
    simp only [List.mem_cons, not_or] at h
    simp only [jsSplit, ih h.2]
    rw [if_neg (fun hc => h.1 hc.symm)]

theorem jsSplit_append_cons (sep : Char) (xs ys : List Char) (h : sep ∉ xs) :
    jsSplit sep (xs ++ sep :: ys) = xs :: jsSplit sep ys := by
  induction xs with
  | nil =>
    simp only [List.nil_append, jsSplit]
    rcases h2 : jsSplit sep ys with _ | ⟨x, r⟩
    · exact absurd h2 (jsSplit_ne_nil sep ys)
    · simp [h2]
  | cons c t ih =>
    simp only [List.mem_cons, not_or] at h
    simp only [List.cons_append, jsSplit, List.append_eq, ih h.2]
    rw [if_neg (fun hc => h.1 hc.symm)]

/-!  Classification of single output lines. -/

/-- Any line whose trimmed form begins with `bestmove` reaches exactly the
`bestmove` branch of `handleEngineOutput`: the state is untouched and one
best-move event with payload `trimmed.split(' ')[1]` is emitted. -/
theorem handleOutput_bestmove_line (st : EngineState) (l : JStr) (tail : JStr)
    (h : jsTrim l = str ("bestmove") ++ tail) :
    handleEngineOutput st l =
      (st, [EngineEvent.bestmove ((jsSplit ' ' (jsTrim l))[1]?)], []) := by
  have hb : str ("bestmove") ++ tail
      = 'b' :: 'e' :: 's' :: 't' :: 'm' :: 'o' :: 'v' :: 'e' :: tail := rfl
  rw [hb] at h
  simp only [handleEngineOutput, h, jsStartsWith]
  have e1 : List.isPrefixOf (str ("id name"))
      ('b' :: 'e' :: 's' :: 't' :: 'm' :: 'o' :: 'v' :: 'e' :: tail) = false := by
    simp [str, List.isPrefixOf]
  have e2 : List.isPrefixOf (str ("id author"))
      ('b' :: 'e' :: 's' :: 't' :: 'm' :: 'o' :: 'v' :: 'e' :: tail) = false := by
    simp [str, List.isPrefixOf]
  have e3 : List.isPrefixOf (str ("option name"))
      ('b' :: 'e' :: 's' :: 't' :: 'm' :: 'o' :: 'v' :: 'e' :: tail) = false := by
    simp [str, List.isPrefixOf]
  have e4 : ('b' :: 'e' :: 's' :: 't' :: 'm' :: 'o' :: 'v' :: 'e' :: tail
      = str ("uciok")) = False := by
    simp [show str ("uciok") = 'u' :: 'c' :: 'i' :: 'o' :: 'k' :: [] from rfl]
  have e5 : ('b' :: 'e' :: 's' :: 't' :: 'm' :: 'o' :: 'v' :: 'e' :: tail
      = str ("readyok")) = False := by
    simp [show str ("readyok") = 'r' :: 'e' :: 'a' :: 'd' :: 'y' :: 'o' :: 'k' :: [] from rfl]
  have e6 : List.isPrefixOf (str ("bestmove"))
      ('b' :: 'e' :: 's' :: 't' :: 'm' :: 'o' :: 'v' :: 'e' :: tail) = true :=
    isPrefixOf_append_left (str ("bestmove")) tail
  simp [e1, e2, e3, e4, e5, e6]

/-- The payload placed into the best-move event for a protocol-formed line
`bestmove <move> [ponder ...]` is exactly the move token. -/
theorem bestmove_payload_token (m rest : JStr) (hm : ' ' ∉ m)
    (hrest : rest = [] ∨ ∃ r, rest = ' ' :: r) :
    (jsSplit ' ' (str ("bestmove ") ++ (m ++ rest)))[1]? = some m := by
  have hx : str ("bestmove ") ++ (m ++ rest) = str ("bestmove") ++ ' ' :: (m ++ rest) := rfl
  rw [hx, jsSplit_append_cons ' ' (str ("bestmove")) (m ++ rest) (by decide)]
  rcases hrest with h0 | ⟨r, h0⟩
  · subst h0
    rw [List.append_nil, jsSplit_no_sep ' ' m hm]
    rfl
  · subst h0
    rw [jsSplit_append_cons ' ' m r hm]
    simp

/-- A line that does not begin with `bestmove` never contributes a best-move
event. -/
theorem no_bestmove_events (st : EngineState) (l : JStr)
    (h : jsStartsWith (jsTrim l) (str ("bestmove")) = false) :
    ((handleEngineOutput st l).2.1).filterMap bestmovePayload = [] := by
  simp only [handleEngineOutput]
  repeat' split
  all_goals simp_all [bestmovePayload]

theorem resolvedMove_skip (ost : EngineState) (l2 : JStr) (ls : List JStr)
    (h : jsStartsWith (jsTrim l2) (str ("bestmove")) = false) :
    resolvedMove ost (l2 :: ls) = resolvedMove (handleEngineOutput ost l2).1 ls := by
  simp [resolvedMove, runLines, List.filterMap_append, no_bestmove_events ost l2 h]

theorem resolvedMove_hit (ost : EngineState) (l : JStr) (post : List JStr) (tail : JStr)
    (h : jsTrim l = str ("bestmove") ++ tail) :
    resolvedMove ost (l :: post) = some ((jsSplit ' ' (jsTrim l))[1]?) := by
  simp [resolvedMove, runLines, handleOutput_bestmove_line ost l tail h,
    List.filterMap_append, bestmovePayload]

/-!  Helper lemmas about promise settlement. -/

theorem foldl_stepSearch_timedOut (l : List SearchEvent) :
    l.foldl stepSearch SearchOutcome.timedOut = SearchOutcome.timedOut := by
  induction l with
  | nil => rfl
  | cons e t ih => cases e <;> simpa [stepSearch]

theorem foldl_stepSearch_no_bm (pre : List SearchEvent)
    (h : ∀ m, SearchEvent.bestmove m ∉ pre) :
    pre.foldl stepSearch SearchOutcome.pending = SearchOutcome.pending ∨
    pre.foldl stepSearch SearchOutcome.pending = SearchOutcome.timedOut := by
  cases pre with
  | nil => exact Or.inl rfl
  | cons e t =>
    cases e with
    | timeout =>
      right
      simp [List.foldl_cons, stepSearch, foldl_stepSearch_timedOut]
    | bestmove m => exact absurd (List.mem_cons_self _ _) (h m)

/-- Every branch of the search-command precedence produces a `go `-prefixed
command. -/
theorem searchCommand_starts_go (cfg : GameConfig) (tl : Option Nat) :
    jsStartsWith (searchCommand cfg tl) (str ("go ")) = true := by
  unfold searchCommand jsStartsWith
  split
  · rw [show str ("go depth ") = str ("go ") ++ str ("depth ") from rfl, List.append_assoc]
    exact isPrefixOf_append_left _ _
  · split
    · rw [show str ("go movetime ") = str ("go ") ++ str ("movetime ") from rfl,
        List.append_assoc]
      exact isPrefixOf_append_left _ _
    · decide

/-!  Claims. -/

/-- Claim C1 (code bug): the output parser is claimed to buffer a partial
trailing line of one chunk and prefix it to the next, never processing it as
a complete line.  The code (`data.toString().trim().split('\n')` on each
chunk separately) does process it: on the chunk sequence `"bestmove e2"`,
`"e4\n"` it emits a best-move event carrying `e2`, while the buffering
behaviour modelled from the spec emits one event carrying `e2e4`. -/
theorem c1_partial_trailing_line_processed :
    (processChunks {} [str ("bestmove e2"), str ("e4\n")]).2.1
      = [EngineEvent.bestmove (some (str ("e2")))] ∧
    (runLines {} (bufferedLines [str ("bestmove e2"), str ("e4\n")])).2.1
      = [EngineEvent.bestmove (some (str ("e2e4")))] ∧
    (processChunks {} [str ("bestmove e2"), str ("e4\n")]).2.1
      ≠ (runLines {} (bufferedLines [str ("bestmove e2"), str ("e4\n")])).2.1 :=
  ⟨by decide, by decide, by decide⟩

/-- Claim C2: a `getBestMove` call made while the engine is ready attempts no
restart and sends exactly one `position fen <position>` command followed by
exactly one `go ...` command; the promise resolves with the move token of the
first subsequent output line beginning `bestmove` (the token after
`bestmove `, trailing ponder information ignored), provided the earlier lines
carry no best-move event. -/
theorem c2_best_move_request (st : EngineState) (rs : Bool) (cfg : GameConfig)
    (pos : JStr) (tl : Option Nat) (ost : EngineState)
    (pre post : List JStr) (l m rest : JStr)
    (hready : st.isReady = true)
    (hpre : ∀ x ∈ pre, jsStartsWith (jsTrim x) (str ("bestmove")) = false)
    (hl : jsTrim l = str ("bestmove ") ++ (m ++ rest))
    (hm : ' ' ∉ m)
    (hrest : rest = [] ∨ ∃ r, rest = ' ' :: r) :
    getBestMovePre st rs cfg pos tl
      = (0, BestMoveOutcome.proceed [str ("position fen ") ++ pos, searchCommand cfg tl]) ∧
    jsStartsWith (searchCommand cfg tl) (str ("go ")) = true ∧
    resolvedMove ost (pre ++ l :: post) = some (some m) := by
  refine ⟨?_, searchCommand_starts_go cfg tl, ?_⟩
  · simp [getBestMovePre, hready, bestMoveCommands]
  · have main : ∀ ost2 (pre2 : List JStr),
        (∀ x ∈ pre2, jsStartsWith (jsTrim x) (str ("bestmove")) = false) →
        resolvedMove ost2 (pre2 ++ l :: post) = some (some m) := by
      intro ost2 pre2 hpre2
      induction pre2 generalizing ost2 with
      | nil =>
        have htail : jsTrim l = str ("bestmove") ++ (' ' :: (m ++ rest)) := hl.trans rfl
        rw [List.nil_append, resolvedMove_hit ost2 l post _ htail, hl]
        rw [bestmove_payload_token m rest hm hrest]
      | cons x xs ih =>
        have hx : jsStartsWith (jsTrim x) (str ("bestmove")) = false :=
          hpre2 x (List.mem_cons_self x xs)
        rw [List.cons_append, resolvedMove_skip ost2 x _ hx]
        exact ih _ (fun y hy => hpre2 y (List.mem_cons_of_mem x hy))
    exact main ost pre hpre

/-- Witness for C2 at the example of the specification: configured depth 10,
an `info` line, then `bestmove e2e4 ponder e7e5`. -/
theorem c2_best_move_request_witness :
    getBestMovePre { hasProcess := true, isReady := true, isRestarting := false, options := [] }
        true { enginePath := str ("stockfish"), timeLimit := none, depth := some 10, skillLevel := none }
        (str ("8/8/8/8/8/8/8/8 w - - 0 1")) none
      = (0, BestMoveOutcome.proceed
          [str ("position fen ") ++ str ("8/8/8/8/8/8/8/8 w - - 0 1"),
           searchCommand
             { enginePath := str ("stockfish"), timeLimit := none, depth := some 10, skillLevel := none }
             none]) ∧
    jsStartsWith
      (searchCommand
        { enginePath := str ("stockfish"), timeLimit := none, depth := some 10, skillLevel := none }
        none) (str ("go ")) = true ∧
    resolvedMove {} ([str ("info depth 1")] ++ str ("bestmove e2e4 ponder e7e5") :: [])
      = some (some (str ("e2e4"))) :=
  c2_best_move_request
    { hasProcess := true, isReady := true, isRestarting := false, options := [] }
    true { enginePath := str ("stockfish"), timeLimit := none, depth := some 10, skillLevel := none }
    (str ("8/8/8/8/8/8/8/8 w - - 0 1")) none {}
    [str ("info depth 1")] [] (str ("bestmove e2e4 ponder e7e5"))
    (str ("e2e4")) (str (" ponder e7e5"))
    rfl (by decide) (by decide) (by decide)
    (Or.inr ⟨str ("ponder e7e5"), by decide⟩)

/-- Counterexample for C3: with no configured depth, a configured default
time limit of 5000 ms and a per-call time limit of `0`, the claim prescribes
`go movetime 0` (the per-call value was given), but the code treats the falsy
`0` as absent and sends `go movetime 5000`. -/
theorem c3_counterexample_zero_time_limit :
    searchCommand
        { enginePath := str ("stockfish"), timeLimit := some 5000, depth := none, skillLevel := none }
        (some 0)
      = str ("go movetime 5000") ∧
    str ("go movetime 5000") ≠ str ("go movetime 0") :=
  ⟨by decide, by decide⟩

/-- Claim C3 (amended): the precedence holds with "configured"/"given" read
as JS-truthy, i.e. present and nonzero: a nonzero configured depth wins
regardless of any time limit; else a nonzero per-call time limit; else a
nonzero configured default time limit; else `go depth 10`. -/
theorem c3_truthiness_precedence (cfg : GameConfig) (tl : Option Nat) :
    (∀ d, cfg.depth = some d → d ≠ 0 →
      searchCommand cfg tl = str ("go depth ") ++ natToJStr d) ∧
    (jsTruthyNum cfg.depth = false → ∀ t, tl = some t → t ≠ 0 →
      searchCommand cfg tl = str ("go movetime ") ++ natToJStr t) ∧
    (jsTruthyNum cfg.depth = false → jsTruthyNum tl = false → ∀ t,
      cfg.timeLimit = some t → t ≠ 0 →
      searchCommand cfg tl = str ("go movetime ") ++ natToJStr t) ∧
    (jsTruthyNum cfg.depth = false → jsTruthyNum tl = false →
      jsTruthyNum cfg.timeLimit = false →
      searchCommand cfg tl = str ("go depth 10")) := by
  refine ⟨?_, ?_, ?_, ?_⟩
  · intro d hd hne
    simp [searchCommand, jsTruthyNum, hd, hne]
  · intro hdep t ht hne
    subst ht
    unfold searchCommand
    rw [hdep]
    simp [jsTruthyNum, hne]
  · intro hdep htl t ht hne
    unfold searchCommand
    rw [hdep, htl, ht]
    simp [jsTruthyNum, hne]
  · intro hdep htl hcfg
    simp [searchCommand, hdep, htl, hcfg]

/-- Witness for the amended C3: with no depth and a per-call limit of 7 ms,
`go movetime 7` is sent. -/
theorem c3_truthiness_precedence_witness :
    searchCommand
        { enginePath := str ("stockfish"), timeLimit := none, depth := none, skillLevel := none }
        (some 7)
      = str ("go movetime ") ++ natToJStr 7 :=
  (c3_truthiness_precedence
      { enginePath := str ("stockfish"), timeLimit := none, depth := none, skillLevel := none }
      (some 7)).2.1 (by decide) 7 rfl (by decide)

/-- Claim C4 (code bug): the claim says a line beginning `option name` is
inserted if and only if a non-empty name and a type token were parsed, and
that malformed lines leave the table unchanged.  The line
`option name Foo Bar` has no `type` token, yet `findIndex` returns `-1`, so
`slice(2, -1)` yields the name `Foo` and the type is read from `parts[0]`,
inserting an entry of kind `option`.  The well-formed Skill Level example of
the claim does parse as stated. -/
theorem c4_malformed_option_line_inserted :
    (handleEngineOutput {} (str ("option name Foo Bar"))).1.options
      = [(str ("Foo"), { name := str ("Foo"), type := str ("option") })] ∧
    (handleEngineOutput {} (str ("option name Foo Bar"))).1.options ≠ [] ∧
    parseOption (str ("option name Skill Level type spin default 20 min 0 max 20")) [] =
      [(str ("Skill Level"),
        { name := str ("Skill Level"), type := str ("spin"), dflt := some (str ("20")),
          min := some 0, max := some 20, var := none })] :=
  ⟨by decide, by decide, by decide⟩

/-- Claim C5: the timer of `getBestMove` is armed at the effective time
budget plus 1000 ms, and when it fires before any best-move event the promise
settles as a timeout rejection and stays so: a late best-move event arriving
afterwards never delivers a result for that call. -/
theorem c5_search_timeout_no_late_delivery (cfg : GameConfig) (tl : Option Nat)
    (pre post : List SearchEvent)
    (hpre : ∀ m, SearchEvent.bestmove m ∉ pre) :
    searchTimeoutMs cfg tl = effectiveBudget cfg tl + 1000 ∧
    runSearch (pre ++ SearchEvent.timeout :: post) = SearchOutcome.timedOut := by
  refine ⟨rfl, ?_⟩
  unfold runSearch
  rw [List.foldl_append]
  rcases foldl_stepSearch_no_bm pre hpre with h | h <;> rw [h] <;>
    simp [List.foldl_cons, stepSearch, foldl_stepSearch_timedOut]

/-- Witness for C5: the timeout fires, then a late best-move event arrives;
the outcome is still the timeout. -/
theorem c5_search_timeout_no_late_delivery_witness :
    searchTimeoutMs { enginePath := str ("stockfish"), timeLimit := none, depth := none, skillLevel := none } none
      = effectiveBudget { enginePath := str ("stockfish"), timeLimit := none, depth := none, skillLevel := none } none + 1000 ∧
    runSearch ([] ++ SearchEvent.timeout :: [SearchEvent.bestmove (some (str ("e2e4")))])
      = SearchOutcome.timedOut :=
  c5_search_timeout_no_late_delivery
    { enginePath := str ("stockfish"), timeLimit := none, depth := none, skillLevel := none }
    none [] [SearchEvent.bestmove (some (str ("e2e4")))] (by simp)

/-- Claim C6: an exit with a non-`0` (or `null`) code while no deliberate
restart or stop is in progress clears readiness and schedules exactly one
automatic restart: a single plan with a 1000 ms delay whose cleanup drops the
process handle, clears readiness and empties the option table before `start()`
is re-run.  The `Option RestartPlan` result of `handleExit` expresses that at
most one restart is attempted per exit event. -/
theorem c6_unsolicited_exit_single_restart (st : EngineState) (code : Option Int)
    (h1 : st.isRestarting = false) (h2 : code ≠ some 0) :
    (handleExit st code).1.isReady = false ∧
    (handleExit st code).2 = some
      { delayMs := 1000
        stateBeforeStart :=
          { hasProcess := false, isReady := false, isRestarting := true, options := [] } } := by
  simp [handleExit, attemptRestart, h1, h2]

/-- Witness for C6 at a ready engine dying with exit code 1. -/
theorem c6_unsolicited_exit_single_restart_witness :
    (handleExit { hasProcess := true, isReady := true, isRestarting := false, options := [] }
        (some 1)).1.isReady = false ∧
    (handleExit { hasProcess := true, isReady := true, isRestarting := false, options := [] }
        (some 1)).2 = some
      { delayMs := 1000
        stateBeforeStart :=
          { hasProcess := false, isReady := false, isRestarting := true, options := [] } } :=
  c6_unsolicited_exit_single_restart
    { hasProcess := true, isReady := true, isRestarting := false, options := [] }
    (some 1) rfl (by decide)

/-- Claim C7: `stop()` sets the do-not-auto-restart flag, after which a
process exit with any code schedules no restart; and a second `stop()` on the
already-stopped state changes no state, sends no command and raises no
error. -/
theorem c7_stop_suppresses_restart_and_idempotent (st : EngineState) :
    ((stop st).1.isRestarting = true) ∧
    (∀ code, (handleExit (stop st).1 code).2 = none) ∧
    stop (stop st).1 = ((stop st).1, []) := by
  obtain ⟨hp, hr, hrs, opts⟩ := st
  cases hp <;> simp [stop, handleExit]

/-- Counterexample for C8: with the engine not ready but a restart already in
progress (`isRestarting = true`, e.g. during the 1-second delay of an
automatic restart), `getBestMove` attempts zero restart cycles — not exactly
one as claimed — and fails immediately. -/
theorem c8_counterexample_restart_in_progress :
    getBestMovePre { hasProcess := false, isReady := false, isRestarting := true, options := [] }
        true { enginePath := str ("stockfish"), timeLimit := none, depth := none, skillLevel := none }
        (str ("8/8/8/8/8/8/8/8 w - - 0 1")) none
      = (0, BestMoveOutcome.restartFailedError) ∧
    (0 : Nat) ≠ 1 :=
  ⟨by decide, by decide⟩

/-- Claim C8 (amended): a `getBestMove` call made while the engine is not
ready attempts exactly one restart cycle when no restart is already in
progress, and fails with the restart-failed error without sending any search
command when that restart does not make the engine ready; when a restart is
already in progress, no new restart cycle is attempted and the call fails
with the same error immediately. -/
theorem c8_not_ready_restart_behavior (st : EngineState) (rs : Bool)
    (cfg : GameConfig) (pos : JStr) (tl : Option Nat)
    (hready : st.isReady = false) :
    (st.isRestarting = false →
      (getBestMovePre st rs cfg pos tl).1 = 1 ∧
      (rs = false →
        getBestMovePre st rs cfg pos tl = (1, BestMoveOutcome.restartFailedError))) ∧
    (st.isRestarting = true →
      getBestMovePre st rs cfg pos tl = (0, BestMoveOutcome.restartFailedError)) := by
  constructor
  · intro hr
    cases rs <;> simp [getBestMovePre, hready, hr]
  · intro hr
    simp [getBestMovePre, hready, hr]

/-- Witness for the amended C8: engine not ready, no restart in progress,
restart fails: one attempt, then the restart-failed error. -/
theorem c8_not_ready_restart_behavior_witness :
    (({ hasProcess := false, isReady := false, isRestarting := false, options := [] } : EngineState).isRestarting = false →
      (getBestMovePre { hasProcess := false, isReady := false, isRestarting := false, options := [] }
          false { enginePath := str ("stockfish"), timeLimit := none, depth := none, skillLevel := none }
          (str ("8/8/8/8/8/8/8/8 w - - 0 1")) none).1 = 1 ∧
      (false = false →
        getBestMovePre { hasProcess := false, isReady := false, isRestarting := false, options := [] }
            false { enginePath := str ("stockfish"), timeLimit := none, depth := none, skillLevel := none }
            (str ("8/8/8/8/8/8/8/8 w - - 0 1")) none
          = (1, BestMoveOutcome.restartFailedError))) ∧
    (({ hasProcess := false, isReady := false, isRestarting := false, options := [] } : EngineState).isRestarting = true →
      getBestMovePre { hasProcess := false, isReady := false, isRestarting := false, options := [] }
          false { enginePath := str ("stockfish"), timeLimit := none, depth := none, skillLevel := none }
          (str ("8/8/8/8/8/8/8/8 w - - 0 1")) none
        = (0, BestMoveOutcome.restartFailedError)) :=
  c8_not_ready_restart_behavior
    { hasProcess := false, isReady := false, isRestarting := false, options := [] }
    false { enginePath := str ("stockfish"), timeLimit := none, depth := none, skillLevel := none }
    (str ("8/8/8/8/8/8/8/8 w - - 0 1")) none rfl

/-- Claim C9: a complete output line whose trimmed form matches none of the
recognized prefixes (`id name`, `id author`, `option name`, `uciok`,
`readyok`, `bestmove`, `info`) leaves the whole engine state (readiness,
restarting flag, option table, process handle) unchanged, emits no event and
sends no command. -/
theorem c9_unrecognized_line_noop (st : EngineState) (l : JStr)
    (h1 : jsStartsWith (jsTrim l) (str ("id name")) = false)
    (h2 : jsStartsWith (jsTrim l) (str ("id author")) = false)
    (h3 : jsStartsWith (jsTrim l) (str ("option name")) = false)
    (h4 : jsStartsWith (jsTrim l) (str ("uciok")) = false)
    (h5 : jsStartsWith (jsTrim l) (str ("readyok")) = false)
    (h6 : jsStartsWith (jsTrim l) (str ("bestmove")) = false)
    (h7 : jsStartsWith (jsTrim l) (str ("info")) = false) :
    handleEngineOutput st l = (st, [], []) := by
  have e4 : ¬ (jsTrim l = str ("uciok")) := by
    intro he
    simp only [jsStartsWith] at h4
    rw [he, isPrefixOf_self_eq] at h4
    cases h4
  have e5 : ¬ (jsTrim l = str ("readyok")) := by
    intro he
    simp only [jsStartsWith] at h5
    rw [he, isPrefixOf_self_eq] at h5
    cases h5
  simp [handleEngineOutput, h1, h2, h3, h6, h7, e4, e5]

/-- Witness for C9 at the banner line a real engine prints first. -/
theorem c9_unrecognized_line_noop_witness :
    handleEngineOutput {} (str ("Stockfish 16 by the Stockfish developers"))
      = ({}, [], []) :=
  c9_unrecognized_line_noop {} (str ("Stockfish 16 by the Stockfish developers"))
    (by decide) (by decide) (by decide) (by decide) (by decide) (by decide) (by decide)

/-- Claim C10: `getAvailableOptions` returns a fresh copy of the options map:
the returned handle differs from the internal one, it reads the same
contents, and writing any new contents through the returned handle leaves the
internal map unchanged. -/
theorem c10_get_available_options_fresh_copy (e : EngineObj)
    (h : e.optionsRef < e.heap.length) :
    (getAvailableOptions e).2 ≠ e.optionsRef ∧
    readRef (getAvailableOptions e).1.heap (getAvailableOptions e).2
      = readRef e.heap e.optionsRef ∧
    ∀ m, readRef (writeRef (getAvailableOptions e).1.heap (getAvailableOptions e).2 m)
      e.optionsRef = readRef e.heap e.optionsRef := by
  refine ⟨by simp [getAvailableOptions]; omega, ?_, ?_⟩
  · simp [getAvailableOptions, readRef, List.getElem?_concat_length]
  · intro m
    simp only [getAvailableOptions, writeRef, readRef]
    rw [List.getElem?_set_ne (by omega)]
    rw [List.getElem?_append_left h]

/-- Witness for C10 on a one-map heap. -/
theorem c10_get_available_options_fresh_copy_witness :
    (getAvailableOptions { heap := [[]], optionsRef := 0 }).2
      ≠ ({ heap := [[]], optionsRef := 0 } : EngineObj).optionsRef ∧
    readRef (getAvailableOptions { heap := [[]], optionsRef := 0 }).1.heap
        (getAvailableOptions { heap := [[]], optionsRef := 0 }).2
      = readRef ({ heap := [[]], optionsRef := 0 } : EngineObj).heap 0 ∧
    ∀ m, readRef
        (writeRef (getAvailableOptions { heap := [[]], optionsRef := 0 }).1.heap
          (getAvailableOptions { heap := [[]], optionsRef := 0 }).2 m) 0
      = readRef ({ heap := [[]], optionsRef := 0 } : EngineObj).heap 0 :=
  c10_get_available_options_fresh_copy { heap := [[]], optionsRef := 0 } (by decide)

end ChessTerminal
